import Mathlib

/-!
Verification of the segmented-downloader coordinator in `src/downloader.py`
(class `Downloader`).

The embedding below translates the Python class into pure Lean definitions:

* Python integers become `Int`; the float returned by
  `curl.getinfo(CONTENT_LENGTH_DOWNLOAD)` and the float division in
  `round(fileSize / self.parts)` are modelled exactly over `Rat`
  (the values appearing in the claims are far below 2^53, where IEEE
  doubles are exact on these operations).
* Python's `round`, which rounds half to even, is `pyRound`.
* Python dicts (`partPosition`, `partState`, `lastPosition`) become
  insertion-ordered association lists with `dictSet` / `dictGet`;
  a Python `d[k]` read that would raise `KeyError` is totalised with a
  default, and every theorem touching such a read carries a hypothesis
  ensuring the key is present.
* The `threads` dict, which maps a kernel thread id to a part number, is
  modelled by passing the part number directly to `trackProgress`
  (the only use of that dict is to recover the part number inside the
  progress callback).
* Exceptions become `Except PyErr`.
* The concurrent attempt is modelled as a sequence of atomic ledger
  events (`Ev`): progress callbacks, per-part curl failures, and the
  external `interrupt()` call; each Python callback body runs under the
  interpreter lock, so an interleaving of whole callbacks is faithful.
-/

/-- Terminal states written into `state.xml`: the string literals
`"complete"` / `"incomplete"` of the source. -/
inductive SegState where
  | complete
  | incomplete
deriving DecidableEq, Repr

/-- A `<part id=... state=...>text</part>` element of `state.xml`
(read by `_getXMLData`, produced by `_setXMLData`). -/
structure XPart where
  id : Nat
  state : SegState
  text : String
deriving DecidableEq, Repr

/-- A `<file name=...>` element of `state.xml`. -/
structure XFile where
  name : String
  parts : List XPart
deriving DecidableEq, Repr

/-- The mutable attributes of the Python `Downloader` instance.
`parts` is the remaining-parts counter (`self.parts`), `root` the parsed
content of `state.xml` (`self.root`). -/
structure Downloader where
  fileName : String
  parts : Int
  partSize : Int
  partPosition : List (Nat × Int)
  partState : List (Nat × SegState)
  lastPosition : List (Nat × Int)
  stop : Bool
  resume : Bool
  root : List XFile
deriving DecidableEq, Repr

/-- Python exceptions raised by the translated code paths. -/
inductive PyErr where
  | attributeError
  | zeroDivisionError
  | fileNotFoundError
  | osError
deriving DecidableEq, Repr

/-- `d[k] = v` on a Python dict: update in place if the key is present,
append otherwise (Python dicts preserve insertion order). -/
def dictSet {α : Type} (d : List (Nat × α)) (k : Nat) (v : α) : List (Nat × α) :=
  match d with
  | [] => [(k, v)]
  | (k', v') :: rest => if k' = k then (k, v) :: rest else (k', v') :: dictSet rest k v

/-- `d.get(k)` on a Python dict (`none` when `d[k]` would raise `KeyError`). -/
def dictGet {α : Type} (d : List (Nat × α)) (k : Nat) : Option α :=
  match d with
  | [] => none
  | (k', v) :: rest => if k' = k then some v else dictGet rest k

/-- Python 3 `round`: round half to even (banker's rounding). -/
def pyRound (q : Rat) : Int :=
  let f : Int := ⌊q⌋
  let r : Rat := q - (f : Rat)
  if r < 1 / 2 then f
  else if 1 / 2 < r then f + 1
  else if f % 2 = 0 then f else f + 1

/-- Lines 16-17 of `__init__`:
`fileSize = round(self._getSize()); self.partSize = round(fileSize / self.parts)`. -/
def partSizeOf (totalSize : Rat) (parts : Int) : Int :=
  pyRound ((pyRound totalSize : Rat) / (parts : Rat))

/-- `Downloader.__init__`, with the environment's contributions passed in:
`fileNameMatch` is the result of the filename regex (`none` when
`re.search` returns `None`, in which case `.group(0)` raises
`AttributeError`); `contentLength` is what `_getSize` returns (libcurl
reports `-1.0` when the server sends no length); `stateRoot` is the parsed
`state.xml` (`none` when the file is missing, making `ET.parse` raise
`FileNotFoundError`).  `parts = 0` makes `round(fileSize / self.parts)`
raise `ZeroDivisionError`.  No other validation exists in the source. -/
def initD (fileNameMatch : Option String) (contentLength : Rat) (parts : Int)
    (stateRoot : Option (List XFile)) : Except PyErr Downloader :=
  match fileNameMatch with
  | none => Except.error PyErr.attributeError
  | some fn =>
    if parts = 0 then Except.error PyErr.zeroDivisionError
    else
      match stateRoot with
      | none => Except.error PyErr.fileNotFoundError
      | some root =>
        Except.ok
          { fileName := fn
            parts := parts
            partSize := partSizeOf contentLength parts
            partPosition := []
            partState := []
            lastPosition := []
            stop := false
            resume := false
            root := root }

/-- `_setXMLData`: builds the `<data><file name=...>` document from the
current ledger, one `<part>` per key of `partPosition`, in order; also
performs the trailing `if self.stop: self.resume = False`.  Returns the
mutated instance and the document's single file element. -/
def setXMLData (st : Downloader) : Downloader × XFile :=
  let entries := st.partPosition.map (fun pp =>
    let part := pp.1
    let state := (dictGet st.partState part).getD SegState.incomplete
    let partStart0 : Int := pp.2 + (dictGet st.lastPosition part).getD 0
    let partStart1 : Int :=
      if st.resume then partStart0
      else partStart0 + st.partSize * ((part : Int) - 1) + (if part ≠ 1 then 1 else 0)
    let partStart2 : Int := if state = SegState.complete then partStart1 - 1 else partStart1
    let partEnd : Int := st.partSize * (part : Int)
    { id := part
      state := state
      text := toString partStart2 ++ "-" ++ toString partEnd })
  let st1 := if st.stop then { st with resume := false } else st
  (st1, { name := st.fileName, parts := entries })

/-- `_save(part, state)`: decrement the remaining-parts counter and record
the terminal state only when the part has no recorded state yet; then, when
the counter is zero (Python `if not self.parts`), write `state.xml`.
The returned flag says whether the write happened. -/
def save (st : Downloader) (part : Nat) (state : SegState) : Downloader × Bool :=
  let st1 :=
    match dictGet st.partState part with
    | none => { st with parts := st.parts - 1, partState := dictSet st.partState part state }
    | some _ => st
  if st1.parts = 0 then ((setXMLData st1).1, true) else (st1, false)

/-- `_trackProgress(totalDown, currentDown, ...)` for the worker of `part`:
record the in-attempt byte position, report `complete` when the transfer
reached its expected total, and return the abort code (non-zero makes
`curl.perform()` raise `pycurl.error`). -/
def trackProgress (st : Downloader) (part : Nat) (totalDown currentDown : Int) :
    Downloader × Int :=
  let st1 := { st with partPosition := dictSet st.partPosition part currentDown }
  let st2 :=
    if currentDown ≠ 0 ∧ currentDown = totalDown then (save st1 part SegState.complete).1
    else st1
  (st2, if st2.stop then 1 else 0)

/-- `interrupt()`. -/
def interrupt (st : Downloader) : Downloader :=
  { st with stop := true }

/-- The flag mutation of `reinstate()` (`self.resume = True`); the
`download()` call it then makes is modelled by `resumeBranch` and
`downloadAttempt`. -/
def reinstate (st : Downloader) : Downloader :=
  { st with resume := true }

/-- The fresh-start spawn loop of `download()` (lines 59-68), with the
running mutation of `partStart` / `partEnd`; produces the
`(part, partStart, partEnd)` triples handed to `_downloadRange`.
`partStart += self.partSize + 1 if part == 1 else self.partSize` adds
`partSize + 1` after part 1 and `partSize` afterwards. -/
def planFreshGo (partSize : Int) (part : Nat) (partStart partEnd : Int) :
    Nat → List (Nat × Int × Int)
  | 0 => []
  | rem + 1 =>
    (part, partStart, partEnd) ::
      planFreshGo partSize (part + 1)
        (partStart + partSize + (if part = 1 then 1 else 0)) (partEnd + partSize) rem

/-- The full fresh plan: parts `1..n`, first range starting at `0` and
ending at `partSize`. -/
def planFresh (partSize : Int) (n : Nat) : List (Nat × Int × Int) :=
  planFreshGo partSize 1 0 partSize n

/-- `_getXMLData()`: every `<part>` with `state == "incomplete"` of every
`<file>` whose `name` equals the current file name, in document order. -/
def getXMLData (st : Downloader) : List XPart :=
  st.root.flatMap (fun f =>
    if f.name = st.fileName then
      f.parts.filter (fun p => p.state == SegState.incomplete)
    else [])

/-- `re.search(r"^\d+", s).group(0)`: the maximal leading digit run,
`none` when the match fails (`.group(0)` would raise `AttributeError`). -/
def leadingDigits (s : String) : Option String :=
  let ds := s.toList.takeWhile Char.isDigit
  if ds.isEmpty then none else some (String.mk ds)

/-- `re.search(r"\d+$", s).group(0)`: the maximal trailing digit run. -/
def trailingDigits (s : String) : Option String :=
  let ds := (s.toList.reverse.takeWhile Char.isDigit).reverse
  if ds.isEmpty then none else some (String.mk ds)

/-- Python `int(...)` on a decimal digit string. -/
def strToInt (s : String) : Int :=
  s.toList.foldl (fun n c => n * 10 + ((c.toNat : Int) - 48)) 0

/-- Arguments handed to `threading.Thread(target=self._downloadRange, ...)`
in the resume branch: the two range substrings (passed as strings, exactly
as extracted from the record) and the part id. -/
structure Spawn where
  partStart : String
  partEnd : String
  part : Nat
deriving DecidableEq, Repr

/-- The resume loop body of `download()` (lines 71-81): per incomplete
record, increment the recomputed parts counter, extract the two range
substrings (an unparseable text raises `AttributeError`), store
`lastPosition[part] = int(partStart)` and spawn the worker. -/
def resumeGo (st : Downloader) : List XPart → Except PyErr (Downloader × List Spawn)
  | [] => Except.ok (st, [])
  | p :: rest =>
    let st1 := { st with parts := st.parts + 1 }
    match leadingDigits p.text, trailingDigits p.text with
    | some s, some e =>
      let st2 := { st1 with lastPosition := dictSet st1.lastPosition p.id (strToInt s) }
      match resumeGo st2 rest with
      | Except.ok (stf, sps) => Except.ok (stf, ⟨s, e, p.id⟩ :: sps)
      | Except.error err => Except.error err
    | _, _ => Except.error PyErr.attributeError

/-- The whole resume branch of `download()`: `self.parts = 0`, then the
loop over `_getXMLData()`. -/
def resumeBranch (st : Downloader) : Except PyErr (Downloader × List Spawn) :=
  resumeGo { st with parts := 0 } (getXMLData st)

/-- One atomic ledger event during the transfer phase: a progress callback
of some worker, a `pycurl.error` caught by some worker (which reports
`incomplete`), or the external `interrupt()` call. -/
inductive Ev where
  | progress : Nat → Int → Int → Ev
  | fail : Nat → Ev
  | stopReq : Ev
deriving DecidableEq, Repr

/-- Effect of one event on the shared instance. -/
def stepEv (st : Downloader) : Ev → Downloader
  | Ev.progress part total current => (trackProgress st part total current).1
  | Ev.fail part => (save st part SegState.incomplete).1
  | Ev.stopReq => interrupt st

/-- The transfer phase: the interleaving of all workers' events. -/
def applyEvents (st : Downloader) (evs : List Ev) : Downloader :=
  evs.foldl stepEv st

/-- Lines 83-90 of `download()`: join all workers, then
`if not self.stop: self._mergeFiles(...)`.  The boolean is whether the
merge step is invoked. -/
def downloadAttempt (st : Downloader) (evs : List Ev) : Downloader × Bool :=
  let stf := applyEvents st evs
  (stf, !stf.stop)

/-- Outcome of one worker's `curl.perform()` run: the progress callbacks
it delivered, and whether it returned normally, raised `pycurl.error`
(after the listed callbacks), or whether `open()` itself raised `OSError`
before any transfer. -/
inductive Transfer where
  | success : List (Int × Int) → Transfer
  | curlErr : List (Int × Int) → Transfer
  | openErr : Transfer
deriving DecidableEq, Repr

/-- Folding a worker's progress callbacks into the shared instance. -/
def applyCallbacks (st : Downloader) (part : Nat) (cbs : List (Int × Int)) : Downloader :=
  cbs.foldl (fun s tc => (trackProgress s part tc.1 tc.2).1) st

/-- `_downloadRange` for one worker: `except pycurl.error` turns a curl
failure into `_save(fileNo, "incomplete")`; an `OSError` from `open()` is
not matched by that handler and escapes the function. -/
def downloadRange (st : Downloader) (part : Nat) (tr : Transfer) :
    Except PyErr Downloader :=
  match tr with
  | Transfer.openErr => Except.error PyErr.osError
  | Transfer.success cbs => Except.ok (applyCallbacks st part cbs)
  | Transfer.curlErr cbs =>
    Except.ok ((save (applyCallbacks st part cbs) part SegState.incomplete).1)

/-- Filesystem actions of `_mergeFiles`: appending a part file's content
to the final artifact, and `os.remove` of a part file. -/
inductive MergeEv where
  | writePart : Nat → MergeEv
  | removePart : Nat → MergeEv
deriving DecidableEq, Repr

/-- The loop of `_mergeFiles` from part `k`, for `rem` more parts:
write part `k`'s bytes to the output, remove part `k`'s file, continue.
Returns the action trace and the final artifact's content
(`contents k` being the bytes of `f"{fileName}{k}.part"`). -/
def mergeFilesGo (contents : Nat → List Nat) (k : Nat) : Nat → List MergeEv × List Nat
  | 0 => ([], [])
  | rem + 1 =>
    let rest := mergeFilesGo contents (k + 1) rem
    (MergeEv.writePart k :: MergeEv.removePart k :: rest.1, contents k ++ rest.2)

/-- `_mergeFiles(fileName, parts)`: parts `1..parts` in ascending order. -/
def mergeFiles (contents : Nat → List Nat) (parts : Nat) : List MergeEv × List Nat :=
  mergeFilesGo contents 1 parts

/-- `true` when no part file is removed before the last write to the final
artifact, i.e. when deletion happens only after the whole concatenation. -/
def noWriteAfterRemove : List MergeEv → Bool
  | [] => true
  | MergeEv.writePart _ :: rest => noWriteAfterRemove rest
  | MergeEv.removePart _ :: rest =>
    rest.all (fun e =>
      match e with
      | MergeEv.writePart _ => false
      | MergeEv.removePart _ => true)

/-- A sequence of `_save` calls, counting how many times `state.xml` is
written. -/
def runSaves (st : Downloader) (calls : List (Nat × SegState)) : Downloader × Nat :=
  calls.foldl
    (fun acc c =>
      let r := save acc.1 c.1 c.2
      (r.1, acc.2 + (if r.2 then 1 else 0)))
    (st, 0)

/-- Whether an event is the external `interrupt()` call. -/
def isStopEv : Ev → Bool
  | Ev.stopReq => true
  | _ => false

theorem dictGet_dictSet_self {α : Type} (d : List (Nat × α)) (k : Nat) (v : α) :
    dictGet (dictSet d k v) k = some v := by
  induction d with
  | nil => simp [dictSet, dictGet]
  | cons hd t ih =>
    obtain ⟨k', v'⟩ := hd
    by_cases hk : k' = k
    · simp [dictSet, dictGet, hk]
    · simp [dictSet, dictGet, hk, ih]

theorem dictGet_dictSet_ne {α : Type} (d : List (Nat × α)) (k k' : Nat) (v : α)
    (h : k' ≠ k) : dictGet (dictSet d k v) k' = dictGet d k' := by
  induction d with
  | nil => simp [dictSet, dictGet, Ne.symm h]
  | cons hd t ih =>
    obtain ⟨k₀, v₀⟩ := hd
    by_cases hk : k₀ = k
    · subst hk
      simp [dictSet, dictGet, h, Ne.symm h]
    · simp [dictSet, dictGet, hk, ih]

theorem setXMLData_fst (st : Downloader) :
    (setXMLData st).1 = if st.stop then { st with resume := false } else st := rfl

theorem setXMLData_stop (st : Downloader) : (setXMLData st).1.stop = st.stop := by
  rw [setXMLData_fst]; split <;> rfl

theorem setXMLData_parts (st : Downloader) : (setXMLData st).1.parts = st.parts := by
  rw [setXMLData_fst]; split <;> rfl

theorem setXMLData_partState (st : Downloader) :
    (setXMLData st).1.partState = st.partState := by
  rw [setXMLData_fst]; split <;> rfl

theorem setXMLData_partPosition (st : Downloader) :
    (setXMLData st).1.partPosition = st.partPosition := by
  rw [setXMLData_fst]; split <;> rfl

theorem setXMLData_lastPosition (st : Downloader) :
    (setXMLData st).1.lastPosition = st.lastPosition := by
  rw [setXMLData_fst]; split <;> rfl

theorem save_stop (st : Downloader) (part : Nat) (state : SegState) :
    (save st part state).1.stop = st.stop := by
  unfold save
  cases h : dictGet st.partState part <;>
    · simp only [h]
      split <;> simp [setXMLData_stop]

theorem save_partPosition (st : Downloader) (part : Nat) (state : SegState) :
    (save st part state).1.partPosition = st.partPosition := by
  unfold save
  cases h : dictGet st.partState part <;>
    · simp only [h]
      split <;> simp [setXMLData_partPosition]

theorem save_lastPosition (st : Downloader) (part : Nat) (state : SegState) :
    (save st part state).1.lastPosition = st.lastPosition := by
  unfold save
  cases h : dictGet st.partState part <;>
    · simp only [h]
      split <;> simp [setXMLData_lastPosition]

theorem save_of_none (st : Downloader) (part : Nat) (state : SegState)
    (h : dictGet st.partState part = none) :
    (save st part state).1.parts = st.parts - 1 ∧
      (save st part state).1.partState = dictSet st.partState part state := by
  unfold save
  simp only [h]
  split <;> simp [setXMLData_parts, setXMLData_partState]

theorem save_of_some (st : Downloader) (part : Nat) (state s₀ : SegState)
    (h : dictGet st.partState part = some s₀) :
    (save st part state).1.parts = st.parts ∧
      (save st part state).1.partState = st.partState := by
  unfold save
  simp only [h]
  split <;> simp [setXMLData_parts, setXMLData_partState]

theorem trackProgress_stop (st : Downloader) (part : Nat) (total current : Int) :
    (trackProgress st part total current).1.stop = st.stop := by
  unfold trackProgress
  split <;> simp [save_stop]

theorem trackProgress_partState_of_noComplete (st : Downloader) (part : Nat)
    (total current : Int) (h : ¬(current ≠ 0 ∧ current = total)) :
    (trackProgress st part total current).1.partState = st.partState := by
  simp [trackProgress, h]

theorem stepEv_stop (st : Downloader) (e : Ev) :
    (stepEv st e).stop = (st.stop || isStopEv e) := by
  cases e with
  | progress p t c => simp [stepEv, isStopEv, trackProgress_stop]
  | fail p => simp [stepEv, isStopEv, save_stop]
  | stopReq => simp [stepEv, isStopEv, interrupt]

theorem applyEvents_stop (st : Downloader) (evs : List Ev) :
    (applyEvents st evs).stop = (st.stop || evs.any isStopEv) := by
  induction evs generalizing st with
  | nil => simp [applyEvents]
  | cons e rest ih =>
    show (applyEvents (stepEv st e) rest).stop = _
    rw [ih, stepEv_stop]
    simp [Bool.or_assoc]

theorem any_isStopEv_iff (evs : List Ev) :
    evs.any isStopEv = true ↔ Ev.stopReq ∈ evs := by
  rw [List.any_eq_true]
  constructor
  · rintro ⟨e, he, hs⟩
    cases e <;> simp [isStopEv] at hs ⊢
    exact he
  · intro h
    exact ⟨Ev.stopReq, h, rfl⟩

theorem foldl_save_same_preserves (part : Nat) (s₁ : SegState) (later : List SegState) :
    ∀ st : Downloader, dictGet st.partState part = some s₁ →
      ((later.map (fun s => (part, s))).foldl (fun a c => (save a c.1 c.2).1) st).parts
          = st.parts ∧
        dictGet ((later.map (fun s => (part, s))).foldl
          (fun a c => (save a c.1 c.2).1) st).partState part = some s₁ := by
  induction later with
  | nil => intro st h; exact ⟨rfl, h⟩
  | cons s rest ih =>
    intro st h
    have hstep := save_of_some st part s s₁ h
    have h' : dictGet ((save st part s).1).partState part = some s₁ := by
      rw [hstep.2]; exact h
    have := ih (save st part s).1 h'
    simp only [List.map_cons, List.foldl_cons]
    exact ⟨this.1.trans hstep.1, this.2⟩

/-- C5: `_save` is idempotent with first-writer-wins semantics per part id:
starting from a state where `part` has no recorded terminal state, one
`_save(part, s₁)` followed by any number of further `_save` calls for the
same part leaves the remaining-parts counter decremented exactly once and
the recorded state equal to `s₁`, the first writer's value. -/
theorem c5_save_first_writer_wins (st : Downloader) (part : Nat) (s₁ : SegState)
    (later : List SegState) (h : dictGet st.partState part = none) :
    ((later.map (fun s => (part, s))).foldl (fun a c => (save a c.1 c.2).1)
        (save st part s₁).1).parts = st.parts - 1 ∧
      dictGet ((later.map (fun s => (part, s))).foldl (fun a c => (save a c.1 c.2).1)
        (save st part s₁).1).partState part = some s₁ := by
  have hfirst := save_of_none st part s₁ h
  have h1 : dictGet ((save st part s₁).1).partState part = some s₁ := by
    rw [hfirst.2]; exact dictGet_dictSet_self _ _ _
  have := foldl_save_same_preserves part s₁ later (save st part s₁).1 h1
  exact ⟨this.1.trans hfirst.1, this.2⟩

/-- Witness for C5 at a concrete instance: part 1 unreported, then
`_save(1, complete)` twice; the counter drops from 2 to 1 only once and the
recorded state stays `complete`. -/
theorem c5_save_first_writer_wins_witness :
    dictGet (⟨"f", 2, 250, [(1, 5)], [], [(1, 0)], false, false, []⟩ :
        Downloader).partState 1 = none ∧
      (([SegState.complete].map (fun s => (1, s))).foldl
          (fun a c => (save a c.1 c.2).1)
          (save (⟨"f", 2, 250, [(1, 5)], [], [(1, 0)], false, false, []⟩ : Downloader)
            1 SegState.complete).1).parts
        = (⟨"f", 2, 250, [(1, 5)], [], [(1, 0)], false, false, []⟩ :
            Downloader).parts - 1 ∧
      dictGet (([SegState.complete].map (fun s => (1, s))).foldl
          (fun a c => (save a c.1 c.2).1)
          (save (⟨"f", 2, 250, [(1, 5)], [], [(1, 0)], false, false, []⟩ : Downloader)
            1 SegState.complete).1).partState 1 = some SegState.complete :=
  ⟨by decide,
    c5_save_first_writer_wins
      (⟨"f", 2, 250, [(1, 5)], [], [(1, 0)], false, false, []⟩ : Downloader)
      1 SegState.complete [SegState.complete] (by decide)⟩

/-- C6, counterexample: the persisted record is NOT written at most once
per attempt.  With one outstanding part, `_save(1, complete)` brings the
counter to zero and writes `state.xml`; a second `_save(1, complete)` call
(as happens when `_trackProgress` keeps firing after completion) skips the
decrement but re-enters `if not self.parts`, which is still zero, and
writes again: two writes in one attempt. -/
theorem c6_write_twice_cex :
    ¬ ((runSaves (⟨"f", 1, 250, [(1, 5)], [], [(1, 0)], false, false, []⟩ : Downloader)
        [(1, SegState.complete), (1, SegState.complete)]).2 ≤ 1) := by
  decide

/-- C6, amended: `_save` writes the persisted record exactly on those calls
after which the remaining-parts counter equals zero — the first such call is
the one where the last outstanding segment reports terminal, but every later
`_save` call in the same attempt triggers a further write. -/
theorem c6_write_iff_counter_zero (st : Downloader) (part : Nat) (state : SegState) :
    (save st part state).2 = true ↔ (save st part state).1.parts = 0 := by
  unfold save
  cases h : dictGet st.partState part <;>
    · simp only [h]
      split <;> rename_i hz <;> simp [setXMLData_parts, hz]

/-- C1, counterexample: the merge step is not gated on segment completion.
In a fresh 2-part attempt where part 1's worker fails (reporting
`incomplete`) and part 2 completes, no stop is requested, so
`if not self.stop` holds and `_mergeFiles` is invoked although part 1's
terminal state is `incomplete`. -/
theorem c1_merge_despite_incomplete_cex :
    (downloadAttempt
        (⟨"f", 2, 250, [], [], [(1, 0), (2, 0)], false, false, []⟩ : Downloader)
        [Ev.fail 1, Ev.progress 2 10 10]).2 = true ∧
      dictGet (downloadAttempt
        (⟨"f", 2, 250, [], [], [(1, 0), (2, 0)], false, false, []⟩ : Downloader)
        [Ev.fail 1, Ev.progress 2 10 10]).1.partState 1 = some SegState.incomplete := by
  decide

/-- C1, amended: for every run of the transfer phase, `_mergeFiles` is
invoked if and only if the stop flag was unset at entry and no
`interrupt()` occurred during the run — irrespective of the segments'
terminal states (worker events never set the stop flag). -/
theorem c1_merge_iff_no_stop (st : Downloader) (evs : List Ev) :
    (downloadAttempt st evs).2 = true ↔ st.stop = false ∧ Ev.stopReq ∉ evs := by
  show (!(applyEvents st evs).stop) = true ↔ _
  rw [Bool.not_eq_true', applyEvents_stop, Bool.or_eq_false_iff]
  constructor
  · rintro ⟨h1, h2⟩
    refine ⟨h1, fun hm => ?_⟩
    rw [(any_isStopEv_iff evs).2 hm] at h2
    exact absurd h2 (by simp)
  · rintro ⟨h1, h2⟩
    refine ⟨h1, ?_⟩
    cases ha : evs.any isStopEv
    · rfl
    · exact absurd ((any_isStopEv_iff evs).1 ha) h2

/-- C10: once the stop flag is set it is never cleared — `interrupt` keeps
it, `reinstate` only sets the resume flag, `_trackProgress`, `_save` and
`_setXMLData` never touch it — so every progress callback returns the
abort code 1 and no run of the transfer phase can reach the merge step. -/
theorem c10_stop_flag_is_sticky (st : Downloader) (part : Nat) (total current : Int)
    (i : Nat) (s : SegState) (h : st.stop = true) :
    (interrupt st).stop = true ∧
      (reinstate st).stop = true ∧
      (trackProgress st part total current).1.stop = true ∧
      (trackProgress st part total current).2 = 1 ∧
      (save st i s).1.stop = true ∧
      (setXMLData st).1.stop = true ∧
      ∀ evs : List Ev, (downloadAttempt st evs).2 = false := by
  refine ⟨rfl, h, ?_, ?_, ?_, ?_, ?_⟩
  · rw [trackProgress_stop]; exact h
  · show (if (trackProgress st part total current).1.stop then (1 : Int) else 0) = 1
    rw [trackProgress_stop, h]
    rfl
  · rw [save_stop]; exact h
  · rw [setXMLData_stop]; exact h
  · intro evs
    show (!(applyEvents st evs).stop) = false
    rw [applyEvents_stop, h]
    rfl

theorem pyRound_intCast (t : Int) : pyRound (t : Rat) = t := by
  simp only [pyRound, Int.floor_intCast, sub_self]
  norm_num

/-- The range planned for 0-based index `i`: segment `i + 1`. -/
def plannedSeg (P : Int) (i : Nat) : Nat × Int × Int :=
  (i + 1, if i = 0 then (0 : Int) else (i : Int) * P + 1, ((i : Int) + 1) * P)

theorem planFreshGo_closed (P : Int) : ∀ (rem k : Nat) (s e : Int), 2 ≤ k →
    planFreshGo P k s e rem
      = (List.range rem).map (fun (i : Nat) => (k + i, s + (i : Int) * P, e + (i : Int) * P)) := by
  intro rem
  induction rem with
  | zero => intro k s e _; rfl
  | succ m ih =>
    intro k s e hk
    have hk1 : ¬ k = 1 := by omega
    show (k, s, e) :: planFreshGo P (k + 1) (s + P + (if k = 1 then 1 else 0)) (e + P) m = _
    rw [if_neg hk1, add_zero, ih (k + 1) (s + P) (e + P) (by omega),
      List.range_succ_eq_map, List.map_cons, List.map_map]
    refine congrArg₂ List.cons (by simp) ?_
    refine List.map_congr_left (fun i _ => ?_)
    simp only [Function.comp_apply, Nat.succ_eq_add_one]
    refine congrArg₂ Prod.mk (by omega) (congrArg₂ Prod.mk ?_ ?_) <;> push_cast <;> ring

theorem planFresh_closed (P : Int) (n : Nat) :
    planFresh P n = (List.range n).map (plannedSeg P) := by
  cases n with
  | zero => rfl
  | succ m =>
    show (1, (0 : Int), P) :: planFreshGo P 2 (0 + P + (if 1 = 1 then 1 else 0)) (P + P) m = _
    rw [if_pos rfl, planFreshGo_closed P m 2 _ _ (by omega),
      List.range_succ_eq_map, List.map_cons, List.map_map]
    refine congrArg₂ List.cons (by simp [plannedSeg]) ?_
    refine List.map_congr_left (fun i _ => ?_)
    simp only [Function.comp_apply, Nat.succ_eq_add_one, plannedSeg]
    have hi : ¬ i + 1 = 0 := by omega
    refine congrArg₂ Prod.mk (by omega) (congrArg₂ Prod.mk ?_ ?_)
    · rw [if_neg hi]
      push_cast
      ring
    · push_cast
      ring

theorem plannedSeg_start_zero (P : Int) : (plannedSeg P 0).2.1 = 0 := rfl

theorem plannedSeg_start_pos (P : Int) (i : Nat) (h : ¬ i = 0) :
    (plannedSeg P i).2.1 = (i : Int) * P + 1 := by
  simp [plannedSeg, h]

theorem plannedSeg_end (P : Int) (i : Nat) : (plannedSeg P i).2.2 = ((i : Int) + 1) * P := rfl

theorem pyRound_three_halves : pyRound ((3 : Rat) / 2) = 2 := by
  have hf : ⌊(3 : Rat) / 2⌋ = 1 := by
    rw [Int.floor_eq_iff]
    norm_num
  simp only [pyRound, hf]
  norm_num

/-- C2, counterexample: the partition size is Python's `round`, which
rounds half to even, not `floor`.  For totalSize = 3 and segmentCount = 2
the source computes `round(3 / 2) = 2`, while `floor(3 / 2) = 1`. -/
theorem c2_partition_not_floor_cex : partSizeOf 3 2 ≠ ⌊(3 : Rat) / 2⌋ := by
  have h3 : pyRound (3 : Rat) = 3 := by
    have := pyRound_intCast 3
    simpa using this
  have h1 : partSizeOf 3 2 = 2 := by
    unfold partSizeOf
    rw [h3]
    norm_num [pyRound_three_halves]
  have h2 : ⌊(3 : Rat) / 2⌋ = 1 := by
    rw [Int.floor_eq_iff]
    norm_num
  rw [h1, h2]
  decide

/-- C2, amended: the partition size equals Python's banker's rounding of
`totalSize / segmentCount` (not its floor); with that partition size `P`,
whenever `P ≥ 1` the fresh plan assigns segment 1 the range starting at 0,
segment `k > 1` the range starting at `(k-1)*P + 1`, every segment `k` the
end `k*P`, starts are strictly increasing and planned ranges are pairwise
disjoint (each range ends strictly before every later range starts). -/
theorem c2_fresh_plan (P : Int) (n : Nat) (hP : 1 ≤ P) :
    planFresh P n = (List.range n).map (plannedSeg P) ∧
      (∀ i j : Nat, i < j → j < n →
        (plannedSeg P i).2.1 < (plannedSeg P j).2.1 ∧
          (plannedSeg P i).2.2 < (plannedSeg P j).2.1) ∧
      ∀ t m : Int, partSizeOf (t : Rat) m = pyRound ((t : Rat) / (m : Rat)) := by
  refine ⟨planFresh_closed P n, ?_, ?_⟩
  · intro i j hij _
    have hj : ¬ j = 0 := by omega
    have hjz : (1 : Int) ≤ (j : Int) := by exact_mod_cast Nat.one_le_iff_ne_zero.2 hj
    have h0P : (0 : Int) ≤ P := by linarith
    rw [plannedSeg_start_pos P j hj, plannedSeg_end]
    by_cases hi : i = 0
    · subst hi
      have hjP : P ≤ (j : Int) * P := le_mul_of_one_le_left h0P hjz
      rw [plannedSeg_start_zero]
      constructor <;> push_cast <;> linarith
    · have hlt : (i : Int) < (j : Int) := by exact_mod_cast hij
      have hle : (i : Int) + 1 ≤ (j : Int) := by
        have h : i + 1 ≤ j := hij
        exact_mod_cast h
      have h1 : (i : Int) * P < (j : Int) * P :=
        mul_lt_mul_of_pos_right hlt (by linarith)
      have h2 : ((i : Int) + 1) * P ≤ (j : Int) * P :=
        mul_le_mul_of_nonneg_right hle h0P
      rw [plannedSeg_start_pos P i hi]
      constructor <;> linarith
  · intro t m
    unfold partSizeOf
    rw [pyRound_intCast]

/-- Witness for C2 at the spec's own example: totalSize = 1000,
segmentCount = 4, partition size 250. -/
theorem c2_fresh_plan_witness :
    (1 : Int) ≤ 250 ∧
      (planFresh 250 4 = (List.range 4).map (plannedSeg 250) ∧
        (∀ i j : Nat, i < j → j < 4 →
          (plannedSeg 250 i).2.1 < (plannedSeg 250 j).2.1 ∧
            (plannedSeg 250 i).2.2 < (plannedSeg 250 j).2.1) ∧
        ∀ t m : Int, partSizeOf (t : Rat) m = pyRound ((t : Rat) / (m : Rat))) :=
  ⟨by decide, c2_fresh_plan 250 4 (by decide)⟩

/-- C3, counterexample: the code validates neither the segment count's sign
nor the content length.  Constructing a `Downloader` with segmentCount = -3
and an undetermined total size (the libcurl probe result `-1`) succeeds
without raising anything, where the claim requires an
`InvalidConfiguration` failure. -/
theorem c3_no_validation_cex :
    (initD (some "f.bin") (-1) (-3) (some [])).isOk = true := by
  decide

/-- C3, amended: no `InvalidConfiguration` error exists in the code.
Construction fails, before any transfer, exactly when the filename regex
does not match (`AttributeError`), when segmentCount is exactly 0
(`ZeroDivisionError` from `round(fileSize / parts)`), or when `state.xml`
is absent (`FileNotFoundError` from `ET.parse`); a negative segmentCount
and an undetermined content length (probe result `-1`) are accepted
silently, yielding a nonsensical partition size. -/
theorem c3_init_error_characterisation (fn : Option String) (len : Rat) (parts : Int)
    (root : Option (List XFile)) :
    ((initD fn len parts root).isOk = true ↔
        fn.isSome = true ∧ ¬ parts = 0 ∧ root.isSome = true) ∧
      (fn = none → initD fn len parts root = Except.error PyErr.attributeError) ∧
      (∀ s, fn = some s → parts = 0 →
        initD fn len parts root = Except.error PyErr.zeroDivisionError) ∧
      (∀ s, fn = some s → ¬ parts = 0 → root = none →
        initD fn len parts root = Except.error PyErr.fileNotFoundError) := by
  cases fn with
  | none => simp [initD, Except.isOk, Except.toBool]
  | some s =>
    by_cases hp : parts = 0
    · cases root <;> simp [initD, hp, Except.isOk, Except.toBool]
    · cases root <;> simp [initD, hp, Except.isOk, Except.toBool]

/-- Witness for C3's characterisation at a concrete valid configuration. -/
theorem c3_init_error_characterisation_witness :
    ((initD (some "f.bin") 1000 4 (some [])).isOk = true ↔
        (some "f.bin").isSome = true ∧ ¬ (4 : Int) = 0 ∧
          (some ([] : List XFile)).isSome = true) ∧
      (some "f.bin" = none →
        initD (some "f.bin") 1000 4 (some []) = Except.error PyErr.attributeError) ∧
      (∀ s, some "f.bin" = some s → (4 : Int) = 0 →
        initD (some "f.bin") 1000 4 (some []) = Except.error PyErr.zeroDivisionError) ∧
      (∀ s, some "f.bin" = some s → ¬ (4 : Int) = 0 → some ([] : List XFile) = none →
        initD (some "f.bin") 1000 4 (some []) = Except.error PyErr.fileNotFoundError) :=
  c3_init_error_characterisation (some "f.bin") 1000 4 (some [])

theorem applyCallbacks_partState (st : Downloader) (part : Nat) (cbs : List (Int × Int))
    (h : ∀ tc ∈ cbs, tc.2 = 0 ∨ ¬ tc.2 = tc.1) :
    (applyCallbacks st part cbs).partState = st.partState := by
  induction cbs generalizing st with
  | nil => rfl
  | cons c rest ih =>
    have hc := h c (List.mem_cons_self _ _)
    show (applyCallbacks ((trackProgress st part c.1 c.2).1) part rest).partState = _
    rw [ih _ (fun tc htc => h tc (List.mem_cons_of_mem _ htc)),
      trackProgress_partState_of_noComplete]
    rcases hc with h0 | hne
    · exact fun hcon => hcon.1 h0
    · exact fun hcon => hne hcon.2

/-- C8, counterexample: not every transfer failure is reported as
`incomplete`.  When `open()` of the segment file raises `OSError`, the
handler `except pycurl.error` does not match: the worker makes no terminal
report at all and the exception escapes `_downloadRange` (the thread dies
silently). -/
theorem c8_open_error_escapes_cex :
    downloadRange (⟨"f", 2, 250, [], [], [(1, 0)], false, false, []⟩ : Downloader) 1
      Transfer.openErr = Except.error PyErr.osError := rfl

/-- C8, amended: a collaborator (`pycurl.error`) failure of a segment whose
callbacks never signalled completion is caught inside the worker — no
exception escapes, so the attempt proceeds to its normal end — and the
segment's terminal state is recorded as `incomplete`; but an `OSError` from
opening the segment file escapes the worker without any terminal report. -/
theorem c8_curl_failure_reports_incomplete (st : Downloader) (part : Nat)
    (cbs : List (Int × Int))
    (h1 : dictGet st.partState part = none)
    (h2 : ∀ tc ∈ cbs, tc.2 = 0 ∨ ¬ tc.2 = tc.1) :
    ∃ stf, downloadRange st part (Transfer.curlErr cbs) = Except.ok stf ∧
      dictGet stf.partState part = some SegState.incomplete := by
  refine ⟨_, rfl, ?_⟩
  have hpre : dictGet (applyCallbacks st part cbs).partState part = none := by
    rw [applyCallbacks_partState st part cbs h2]
    exact h1
  rw [(save_of_none (applyCallbacks st part cbs) part SegState.incomplete hpre).2]
  exact dictGet_dictSet_self _ _ _

/-- Witness for C8 at a concrete failed worker: one callback of 4 of 10
bytes, then a curl error. -/
theorem c8_curl_failure_reports_incomplete_witness :
    dictGet (⟨"f", 2, 250, [], [], [(1, 0)], false, false, []⟩ :
        Downloader).partState 1 = none ∧
      (∀ tc ∈ [((10 : Int), (4 : Int))], tc.2 = 0 ∨ ¬ tc.2 = tc.1) ∧
      ∃ stf,
        downloadRange (⟨"f", 2, 250, [], [], [(1, 0)], false, false, []⟩ : Downloader) 1
            (Transfer.curlErr [(10, 4)]) = Except.ok stf ∧
          dictGet stf.partState 1 = some SegState.incomplete :=
  ⟨by decide, by decide,
    c8_curl_failure_reports_incomplete
      (⟨"f", 2, 250, [], [], [(1, 0)], false, false, []⟩ : Downloader)
      1 [(10, 4)] (by decide) (by decide)⟩

theorem mergeFilesGo_closed (contents : Nat → List Nat) :
    ∀ (rem k : Nat),
      mergeFilesGo contents k rem
        = ((List.range' k rem).flatMap
            (fun j => [MergeEv.writePart j, MergeEv.removePart j]),
          (List.range' k rem).flatMap contents) := by
  intro rem
  induction rem with
  | zero => intro k; rfl
  | succ m ih =>
    intro k
    show (MergeEv.writePart k :: MergeEv.removePart k :: (mergeFilesGo contents (k + 1) m).1,
        contents k ++ (mergeFilesGo contents (k + 1) m).2) = _
    rw [ih (k + 1)]
    simp [List.range']

/-- C9, counterexample: segment files are not retained until the whole
concatenation succeeds.  For a 2-part merge the action trace is
write 1, remove 1, write 2, remove 2: part 1's file is removed while part
2's file is still unmerged, contradicting "no segment file is removed while
any segment file remains unmerged". -/
theorem c9_early_removal_cex :
    noWriteAfterRemove (mergeFiles (fun k => [k]) 2).1 = false := by
  decide

/-- C9, amended: `_mergeFiles` concatenates the segment files into the
final artifact in ascending id order 1..N, but deletes each segment file
immediately after appending that segment's bytes (so on a mid-merge failure
the already-merged segment files are gone, and files are removed while
later segments remain unmerged). -/
theorem c9_merge_order (contents : Nat → List Nat) (n : Nat) :
    (mergeFiles contents n).2 = (List.range' 1 n).flatMap contents ∧
      (mergeFiles contents n).1
        = (List.range' 1 n).flatMap
            (fun j => [MergeEv.writePart j, MergeEv.removePart j]) := by
  unfold mergeFiles
  rw [mergeFilesGo_closed contents n 1]
  exact ⟨rfl, rfl⟩

theorem resumeGo_ok (batch : List XPart) :
    ∀ st : Downloader,
      (∀ p ∈ batch,
        (leadingDigits p.text).isSome = true ∧ (trailingDigits p.text).isSome = true) →
      (batch.map XPart.id).Nodup →
      ∃ stf, resumeGo st batch
          = Except.ok (stf, batch.map (fun p =>
              { partStart := (leadingDigits p.text).getD ""
                partEnd := (trailingDigits p.text).getD ""
                part := p.id })) ∧
        stf.parts = st.parts + batch.length ∧
        (∀ p ∈ batch,
          dictGet stf.lastPosition p.id
            = some (strToInt ((leadingDigits p.text).getD ""))) ∧
        (∀ q : Nat, q ∉ batch.map XPart.id →
          dictGet stf.lastPosition q = dictGet st.lastPosition q) := by
  induction batch with
  | nil =>
    intro st _ _
    exact ⟨st, rfl, by simp, by simp, fun q _ => rfl⟩
  | cons p rest ih =>
    intro st hwf hnd
    obtain ⟨hl, ht⟩ := hwf p (List.mem_cons_self _ _)
    obtain ⟨s, hs⟩ := Option.isSome_iff_exists.1 hl
    obtain ⟨e, he⟩ := Option.isSome_iff_exists.1 ht
    have hnd' : (rest.map XPart.id).Nodup := (List.nodup_cons.1 hnd).2
    have hpid : p.id ∉ rest.map XPart.id := (List.nodup_cons.1 hnd).1
    obtain ⟨stf, hrun, hparts, hlast, hframe⟩ :=
      ih { st with parts := st.parts + 1
                   lastPosition := dictSet st.lastPosition p.id (strToInt s) }
        (fun q hq => hwf q (List.mem_cons_of_mem _ hq)) hnd'
    refine ⟨stf, ?_, ?_, ?_, ?_⟩
    · show (match leadingDigits p.text, trailingDigits p.text with
        | some s, some e =>
          match resumeGo { st with parts := st.parts + 1
                                   lastPosition := dictSet st.lastPosition p.id (strToInt s) }
              rest with
          | Except.ok (stf, sps) =>
            Except.ok (stf, ({ partStart := s, partEnd := e, part := p.id } : Spawn) :: sps)
          | Except.error err => Except.error err
        | _, _ => Except.error PyErr.attributeError) = _
      rw [hs, he]
      simp only [hrun, List.map_cons]
      rw [hs, he]
      rfl
    · rw [hparts]
      show st.parts + 1 + (rest.length : Int) = st.parts + ((rest.length + 1 : Nat) : Int)
      push_cast
      ring
    · intro q hq
      rcases List.mem_cons.1 hq with hq | hq
      · subst hq
        rw [hframe q.id hpid]
        show dictGet (dictSet st.lastPosition q.id (strToInt s)) q.id = _
        rw [dictGet_dictSet_self, hs]
        rfl
      · exact hlast q hq
    · intro q hq
      have hq1 : ¬ q = p.id := fun hc => hq (by simp [hc])
      have hq2 : q ∉ rest.map XPart.id := fun hc => hq (List.mem_cons_of_mem _ hc)
      rw [hframe q hq2]
      exact dictGet_dictSet_ne _ _ _ _ hq1

theorem getXMLData_of_absent (st : Downloader)
    (h : ∀ f ∈ st.root, ¬ f.name = st.fileName) : getXMLData st = [] := by
  unfold getXMLData
  have : ∀ r : List XFile, (∀ f ∈ r, ¬ f.name = st.fileName) →
      (r.flatMap (fun f =>
        if f.name = st.fileName then
          f.parts.filter (fun p => p.state == SegState.incomplete)
        else [])) = [] := by
    intro r
    induction r with
    | nil => intro _; rfl
    | cons f rest ih =>
      intro hr
      rw [List.flatMap_cons, if_neg (hr f (List.mem_cons_self _ _)),
        ih (fun g hg => hr g (List.mem_cons_of_mem _ hg))]
      rfl
  exact this st.root h

/-- C4: the resume branch of `download()` spawns exactly one worker per
record that `_getXMLData` yields — i.e. per `<part>` marked `incomplete`
under a `<file>` whose name matches the target — in record order, passing
exactly the persisted range's two digit runs as the worker's
`(startRange, endRange)` and storing `lastPosition[part] = int(start)`;
the recomputed parts counter equals the number of loaded segments,
previously `complete` segments get no worker, and when no file element
matches the target name the loaded sequence is empty and no worker
starts. -/
theorem c4_resume_loads_exactly_incomplete (st : Downloader)
    (hwf : ∀ p ∈ getXMLData st,
      (leadingDigits p.text).isSome = true ∧ (trailingDigits p.text).isSome = true)
    (hnd : ((getXMLData st).map XPart.id).Nodup) :
    (∃ stf, resumeBranch st
        = Except.ok (stf, (getXMLData st).map (fun p =>
            { partStart := (leadingDigits p.text).getD ""
              partEnd := (trailingDigits p.text).getD ""
              part := p.id })) ∧
      stf.parts = ((getXMLData st).length : Int) ∧
      ∀ p ∈ getXMLData st,
        dictGet stf.lastPosition p.id = some (strToInt ((leadingDigits p.text).getD ""))) ∧
    ((∀ f ∈ st.root, ¬ f.name = st.fileName) →
      resumeBranch st = Except.ok ({ st with parts := 0 }, [])) := by
  constructor
  · obtain ⟨stf, hrun, hparts, hlast, _⟩ :=
      resumeGo_ok (getXMLData st) { st with parts := 0 } hwf hnd
    refine ⟨stf, hrun, ?_, hlast⟩
    rw [hparts]
    show (0 : Int) + _ = _
    ring
  · intro habs
    show resumeGo { st with parts := 0 } (getXMLData st) = _
    rw [getXMLData_of_absent st habs]
    rfl

/-- Witness for C4 at the spec's own example: a record for `file.bin`
listing segment 2 `complete` with range `0-250` and segment 3 `incomplete`
with range `500-1000` loads exactly segment 3, spawning its worker with
the strings `"500"` and `"1000"` and `lastPosition[3] = 500`. -/
theorem c4_resume_loads_exactly_incomplete_witness :
    (∀ p ∈ getXMLData
        (⟨"file.bin", 4, 250, [], [], [], false, true,
          [⟨"file.bin", [⟨2, SegState.complete, "0-250"⟩,
            ⟨3, SegState.incomplete, "500-1000"⟩]⟩]⟩ : Downloader),
      (leadingDigits p.text).isSome = true ∧ (trailingDigits p.text).isSome = true) ∧
    ((getXMLData
        (⟨"file.bin", 4, 250, [], [], [], false, true,
          [⟨"file.bin", [⟨2, SegState.complete, "0-250"⟩,
            ⟨3, SegState.incomplete, "500-1000"⟩]⟩]⟩ : Downloader)).map XPart.id).Nodup ∧
    ((∃ stf, resumeBranch
        (⟨"file.bin", 4, 250, [], [], [], false, true,
          [⟨"file.bin", [⟨2, SegState.complete, "0-250"⟩,
            ⟨3, SegState.incomplete, "500-1000"⟩]⟩]⟩ : Downloader)
        = Except.ok (stf, (getXMLData
            (⟨"file.bin", 4, 250, [], [], [], false, true,
              [⟨"file.bin", [⟨2, SegState.complete, "0-250"⟩,
                ⟨3, SegState.incomplete, "500-1000"⟩]⟩]⟩ : Downloader)).map (fun p =>
            { partStart := (leadingDigits p.text).getD ""
              partEnd := (trailingDigits p.text).getD ""
              part := p.id })) ∧
      stf.parts = ((getXMLData
          (⟨"file.bin", 4, 250, [], [], [], false, true,
            [⟨"file.bin", [⟨2, SegState.complete, "0-250"⟩,
              ⟨3, SegState.incomplete, "500-1000"⟩]⟩]⟩ : Downloader)).length : Int) ∧
      ∀ p ∈ getXMLData
          (⟨"file.bin", 4, 250, [], [], [], false, true,
            [⟨"file.bin", [⟨2, SegState.complete, "0-250"⟩,
              ⟨3, SegState.incomplete, "500-1000"⟩]⟩]⟩ : Downloader),
        dictGet stf.lastPosition p.id = some (strToInt ((leadingDigits p.text).getD ""))) ∧
    ((∀ f ∈ (⟨"file.bin", 4, 250, [], [], [], false, true,
          [⟨"file.bin", [⟨2, SegState.complete, "0-250"⟩,
            ⟨3, SegState.incomplete, "500-1000"⟩]⟩]⟩ : Downloader).root,
        ¬ f.name = "file.bin") →
      resumeBranch
          (⟨"file.bin", 4, 250, [], [], [], false, true,
            [⟨"file.bin", [⟨2, SegState.complete, "0-250"⟩,
              ⟨3, SegState.incomplete, "500-1000"⟩]⟩]⟩ : Downloader)
        = Except.ok ({ (⟨"file.bin", 4, 250, [], [], [], false, true,
            [⟨"file.bin", [⟨2, SegState.complete, "0-250"⟩,
              ⟨3, SegState.incomplete, "500-1000"⟩]⟩]⟩ : Downloader) with parts := 0 }, []))) :=
  ⟨by decide, by decide,
    c4_resume_loads_exactly_incomplete
      (⟨"file.bin", 4, 250, [], [], [], false, true,
        [⟨"file.bin", [⟨2, SegState.complete, "0-250"⟩,
          ⟨3, SegState.incomplete, "500-1000"⟩]⟩]⟩ : Downloader)
      (by decide) (by decide)⟩

theorem persistStartArith (last pos P : Int) (p : Nat) (s : SegState) (res : Bool) :
    (if s = SegState.complete
      then (if res then pos + last
            else pos + last + P * ((p : Int) - 1) + (if p ≠ 1 then 1 else 0)) - 1
      else (if res then pos + last
            else pos + last + P * ((p : Int) - 1) + (if p ≠ 1 then 1 else 0)))
      = last + pos
          + (if res then 0 else P * ((p : Int) - 1) + (if p ≠ 1 then 1 else 0))
          - (if s = SegState.complete then 1 else 0) := by
  cases s <;> cases res <;> simp <;> ring

/-- C7: each persisted descriptor's resume-range start equals the segment's
previous confirmed offset (`lastPosition`) plus the bytes transferred in the
current attempt (`partPosition`), with the partition-size adjustment
`(id-1)*partSize`, plus 1 for ids other than 1, applied only on a fresh
(non-resume) attempt, and 1 subtracted exactly when the recorded terminal
state is `complete`; the end is `id*partSize`, and the record written is a
single file element for the target name holding exactly one `start-end`
descriptor per ledger entry, in ledger order. -/
theorem c7_persist_ranges (st : Downloader)
    (hk : ∀ pp ∈ st.partPosition,
      (dictGet st.lastPosition pp.1).isSome = true ∧
        (dictGet st.partState pp.1).isSome = true) :
    (setXMLData st).2.name = st.fileName ∧
      (setXMLData st).2.parts = st.partPosition.map (fun pp =>
        { id := pp.1
          state := (dictGet st.partState pp.1).getD SegState.incomplete
          text := toString
              ((dictGet st.lastPosition pp.1).getD 0 + pp.2
                + (if st.resume then 0
                  else st.partSize * ((pp.1 : Int) - 1) + (if pp.1 ≠ 1 then 1 else 0))
                - (if (dictGet st.partState pp.1).getD SegState.incomplete = SegState.complete
                  then 1 else 0))
            ++ "-" ++ toString (st.partSize * (pp.1 : Int)) }) := by
  refine ⟨rfl, ?_⟩
  show st.partPosition.map _ = st.partPosition.map _
  refine List.map_congr_left (fun pp _ => ?_)
  exact congrArg
    (fun t => XPart.mk pp.1 ((dictGet st.partState pp.1).getD SegState.incomplete)
      (toString t ++ "-" ++ toString (st.partSize * (pp.1 : Int))))
    (persistStartArith ((dictGet st.lastPosition pp.1).getD 0) pp.2 st.partSize pp.1
      ((dictGet st.partState pp.1).getD SegState.incomplete) st.resume)

/-- Witness for C7 on a concrete paused fresh attempt: part 1 complete at
position 250, part 2 incomplete at position 100, partition size 250 —
persisted as `249-250` and `351-500`. -/
theorem c7_persist_ranges_witness :
    (∀ pp ∈ (⟨"f", 0, 250, [(1, 250), (2, 100)],
        [(1, SegState.complete), (2, SegState.incomplete)], [(1, 0), (2, 0)],
        false, false, []⟩ : Downloader).partPosition,
      (dictGet (⟨"f", 0, 250, [(1, 250), (2, 100)],
        [(1, SegState.complete), (2, SegState.incomplete)], [(1, 0), (2, 0)],
        false, false, []⟩ : Downloader).lastPosition pp.1).isSome = true ∧
      (dictGet (⟨"f", 0, 250, [(1, 250), (2, 100)],
        [(1, SegState.complete), (2, SegState.incomplete)], [(1, 0), (2, 0)],
        false, false, []⟩ : Downloader).partState pp.1).isSome = true) ∧
    ((setXMLData (⟨"f", 0, 250, [(1, 250), (2, 100)],
        [(1, SegState.complete), (2, SegState.incomplete)], [(1, 0), (2, 0)],
        false, false, []⟩ : Downloader)).2.name
      = (⟨"f", 0, 250, [(1, 250), (2, 100)],
        [(1, SegState.complete), (2, SegState.incomplete)], [(1, 0), (2, 0)],
        false, false, []⟩ : Downloader).fileName ∧
      (setXMLData (⟨"f", 0, 250, [(1, 250), (2, 100)],
        [(1, SegState.complete), (2, SegState.incomplete)], [(1, 0), (2, 0)],
        false, false, []⟩ : Downloader)).2.parts
        = (⟨"f", 0, 250, [(1, 250), (2, 100)],
            [(1, SegState.complete), (2, SegState.incomplete)], [(1, 0), (2, 0)],
            false, false, []⟩ : Downloader).partPosition.map (fun pp =>
          { id := pp.1
            state := (dictGet (⟨"f", 0, 250, [(1, 250), (2, 100)],
                [(1, SegState.complete), (2, SegState.incomplete)], [(1, 0), (2, 0)],
                false, false, []⟩ : Downloader).partState pp.1).getD SegState.incomplete
            text := toString
                ((dictGet (⟨"f", 0, 250, [(1, 250), (2, 100)],
                    [(1, SegState.complete), (2, SegState.incomplete)], [(1, 0), (2, 0)],
                    false, false, []⟩ : Downloader).lastPosition pp.1).getD 0 + pp.2
                  + (if (⟨"f", 0, 250, [(1, 250), (2, 100)],
                      [(1, SegState.complete), (2, SegState.incomplete)], [(1, 0), (2, 0)],
                      false, false, []⟩ : Downloader).resume then 0
                    else (⟨"f", 0, 250, [(1, 250), (2, 100)],
                      [(1, SegState.complete), (2, SegState.incomplete)], [(1, 0), (2, 0)],
                      false, false, []⟩ : Downloader).partSize * ((pp.1 : Int) - 1)
                      + (if pp.1 ≠ 1 then 1 else 0))
                  - (if (dictGet (⟨"f", 0, 250, [(1, 250), (2, 100)],
                      [(1, SegState.complete), (2, SegState.incomplete)], [(1, 0), (2, 0)],
                      false, false, []⟩ : Downloader).partState pp.1).getD SegState.incomplete
                      = SegState.complete then 1 else 0))
              ++ "-" ++ toString ((⟨"f", 0, 250, [(1, 250), (2, 100)],
                  [(1, SegState.complete), (2, SegState.incomplete)], [(1, 0), (2, 0)],
                  false, false, []⟩ : Downloader).partSize * (pp.1 : Int)) })) :=
  ⟨by decide,
    c7_persist_ranges
      (⟨"f", 0, 250, [(1, 250), (2, 100)],
        [(1, SegState.complete), (2, SegState.incomplete)], [(1, 0), (2, 0)],
        false, false, []⟩ : Downloader)
      (by decide)⟩

/-- Witness for C10 at a concrete stopped instance. -/
theorem c10_stop_flag_is_sticky_witness :
    (⟨"f", 2, 250, [], [], [(1, 0)], true, false, []⟩ : Downloader).stop = true ∧
      ((interrupt (⟨"f", 2, 250, [], [], [(1, 0)], true, false, []⟩ : Downloader)).stop = true ∧
        (reinstate (⟨"f", 2, 250, [], [], [(1, 0)], true, false, []⟩ : Downloader)).stop = true ∧
        (trackProgress (⟨"f", 2, 250, [], [], [(1, 0)], true, false, []⟩ : Downloader)
            1 4 2).1.stop = true ∧
        (trackProgress (⟨"f", 2, 250, [], [], [(1, 0)], true, false, []⟩ : Downloader)
            1 4 2).2 = 1 ∧
        (save (⟨"f", 2, 250, [], [], [(1, 0)], true, false, []⟩ : Downloader)
            1 SegState.complete).1.stop = true ∧
        (setXMLData (⟨"f", 2, 250, [], [], [(1, 0)], true, false, []⟩ : Downloader)).1.stop
            = true ∧
        ∀ evs : List Ev,
          (downloadAttempt (⟨"f", 2, 250, [], [], [(1, 0)], true, false, []⟩ : Downloader)
            evs).2 = false) :=
  ⟨by decide,
    c10_stop_flag_is_sticky
      (⟨"f", 2, 250, [], [], [(1, 0)], true, false, []⟩ : Downloader)
      1 4 2 1 SegState.complete (by decide)⟩
